import Mathlib

/-!
Shallow embedding of the bearer-token authentication and authorization core
of the outerspace repository (src/src/authentication/mod.rs,
src/src/authentication/permissions.rs, src/src/model/read/mod.rs).

Modelling conventions:
- JSON payloads are an inductive `Json`; objects are association lists and a
  field lookup takes the first matching entry (serde rejects duplicate keys,
  which no claim exercises).
- Cryptography is symbolic: a `Token` records, as `sigKey`, the one key under
  which its signature verifies; `jsonwebtoken::decode` succeeds exactly when
  the selected decoding key equals `sigKey`, the header algorithm matches the
  validation algorithm, and claim validation passes. The expiry comparison
  against the current clock is not modelled (no claim depends on real time);
  presence of the `exp` claim is checked as a required claim.
- `DecodingKey` values are the inductive `Key` (`ofSecret` for
  `DecodingKey::from_secret`, `ofJwk` for `DecodingKey::from_jwk`).
- `Uuid` is modelled as its string form; UUID format validation is elided
  (no claim exercises a malformed `user_id`).
- `HashMap<String, Decoder>` is an association list with first-match lookup.
- Environment variables are `Option String` parameters (`env::var`
  non-unicode failure is not distinguished from absence); the network fetch
  result is an explicit `Except` parameter to the startup function.
-/

namespace Outerspace

/-- A JSON value, as deserialized by serde_json. -/
inductive Json where
  | null
  | str (s : String)
  | num (n : Int)
  | arr (elems : List Json)
  | obj (fields : List (String × Json))

/-- First-match lookup in an association list keyed by strings. -/
def lookupAssoc {α : Type} : List (String × α) → String → Option α
  | [], _ => none
  | (k, v) :: rest, name => if k = name then some v else lookupAssoc rest name

/-- JWT algorithms used by the source (`Algorithm::HS256`, `Algorithm::RS256`). -/
inductive Algorithm where
  | HS256
  | RS256
deriving DecidableEq, Repr

/-- Embeds `jsonwebtoken::Validation`: the accepted algorithm, the expected
audience, and the claim names that must be present. -/
structure Validation where
  alg : Algorithm
  aud : String
  requiredClaims : List String
deriving DecidableEq, Repr

def defaultAud : String := "outerspace.silenlocatelli.com"

/-- Embeds `fn validation(algo: Algorithm) -> Validation`: audience from
`AUTH_JWT_AUD` with a fixed default, plus the required claims
(`exp` from `Validation::new`, and the inserted `tax_platform_apps`). -/
def validation (algo : Algorithm) (audEnv : Option String) : Validation :=
  { alg := algo
    aud := audEnv.getD defaultAud
    requiredClaims := ["exp", "tax_platform_apps"] }

/-- Symbolic decoding-key material. -/
inductive Key where
  | ofSecret (secret : String)
  | ofJwk (material : String)
deriving DecidableEq, Repr

/-- Embeds `struct Decoder { key, validation }`. -/
structure Decoder where
  key : Key
  validation : Validation
deriving DecidableEq, Repr

/-- Embeds `enum Decoders { Single(Box<Decoder>), Multiple(HashMap<String, Decoder>) }`. -/
inductive Decoders where
  | Single (d : Decoder)
  | Multiple (map : List (String × Decoder))
deriving DecidableEq, Repr

/-- Embeds `enum Permission` (permissions.rs): a closed serde enumeration
whose only variant deserializes from the string tag "admin". -/
inductive Permission where
  | Admin
deriving DecidableEq, Repr

abbrev Uuid := String

/-- Embeds `struct AccessToken { email, user_id, permissions }`. -/
structure AccessToken where
  email : Option String
  user_id : Uuid
  permissions : List Permission
deriving DecidableEq, Repr

/-- Serde deserialization of one `Permission` value: the unit variant `Admin`
is renamed to "admin"; any other JSON value is a deserialization error. -/
def parsePermission : Json → Option Permission
  | .str "admin" => some .Admin
  | _ => none

/-- Serde deserialization of `Vec<Permission>`: element-wise, failing the
whole vector on the first failing element. -/
def parsePermissionList : List Json → Option (List Permission)
  | [] => some []
  | j :: rest =>
    match parsePermission j with
    | none => none
    | some p => (parsePermissionList rest).map (fun ps => p :: ps)

def parsePermissions : Json → Option (List Permission)
  | .arr elems => parsePermissionList elems
  | _ => none

/-- Serde handling of the `email: Option<String>` field: a missing field or
JSON null is `None`; a string is `Some`; any other value is an error. -/
def parseEmailField : Option Json → Option (Option String)
  | none => some none
  | some .null => some none
  | some (.str s) => some (some s)
  | some _ => none

/-- Serde handling of the required `user_id: Uuid` field (format validation
elided, see header comment). -/
def parseUserIdField : Option Json → Option Uuid
  | some (.str s) => some s
  | _ => none

/-- Serde handling of `#[serde(default)] permissions: Vec<Permission>`:
a missing field defaults to the empty vector; a present field must
deserialize as a vector of permissions. -/
def parsePermissionsField : Option Json → Option (List Permission)
  | none => some []
  | some j => parsePermissions j

/-- Serde deserialization of the token payload into `AccessToken`.
Fields other than `email`, `user_id` and `permissions` are ignored
(the struct does not use `deny_unknown_fields`). -/
def deserializeAccessToken : Json → Option AccessToken
  | .obj fields =>
    match parseEmailField (lookupAssoc fields "email"),
          parseUserIdField (lookupAssoc fields "user_id"),
          parsePermissionsField (lookupAssoc fields "permissions") with
    | some email, some uid, some perms =>
      some { email := email, user_id := uid, permissions := perms }
    | _, _, _ => none
  | _ => none

/-- The parsed JWT header (`jsonwebtoken::Header`): the optional `kid`
and the declared algorithm. -/
structure Header where
  kid : Option String
  alg : Algorithm
deriving DecidableEq, Repr

/-- A symbolic JWT: `header = none` models a token whose header
`jsonwebtoken::decode_header` fails to parse; `sigKey` is the unique key
under which the token's signature verifies. -/
structure Token where
  header : Option Header
  payload : Json
  sigKey : Key

/-- The decode failure taxonomy of the spec; in the source all three are
`anyhow::Error` values (the `UnknownKey` case is the literal
`anyhow!("unknown token key")`). -/
inductive DecodeError where
  | Malformed
  | UnknownKey
  | InvalidSignatureOrClaims
deriving DecidableEq, Repr

/-- A required claim is present when the payload object has a field of that
name. -/
def hasClaim (payload : Json) (name : String) : Bool :=
  match payload with
  | .obj fields => (lookupAssoc fields name).isSome
  | _ => false

/-- Whether a JSON value is exactly the given string. -/
def jsonIsStr : Json → String → Bool
  | .str a, s => a == s
  | _, _ => false

/-- Audience validation: the payload's `aud` claim equals the expected
audience (or, for an array-valued `aud`, contains it). -/
def audMatches (payload : Json) (aud : String) : Bool :=
  match payload with
  | .obj fields =>
    match lookupAssoc fields "aud" with
    | some (.str a) => a == aud
    | some (.arr elems) => elems.any (fun j => jsonIsStr j aud)
    | _ => false
  | _ => false

/-- Claim validation performed by `jsonwebtoken::decode` under a
`Validation`: every required claim present and the audience matching. -/
def validateClaims (v : Validation) (payload : Json) : Bool :=
  v.requiredClaims.all (hasClaim payload) && audMatches payload v.aud

/-- Embeds `Decoder::decode`: `jsonwebtoken::decode` verifies the declared
algorithm, the signature, and the claims, then deserializes the payload. -/
def Decoder.decode (d : Decoder) (t : Token) : Except DecodeError AccessToken :=
  match t.header with
  | none => .error .Malformed
  | some h =>
    if h.alg == d.validation.alg && t.sigKey == d.key
        && validateClaims d.validation t.payload then
      match deserializeAccessToken t.payload with
      | some claims => .ok claims
      | none => .error .InvalidSignatureOrClaims
    else .error .InvalidSignatureOrClaims

/-- Embeds `jsonwebtoken::decode_header`. -/
def decodeHeader (t : Token) : Except DecodeError Header :=
  match t.header with
  | some h => .ok h
  | none => .error .Malformed

/-- Embeds `Decoders::decode`: parse the header; for `Single` use the one
decoder unconditionally, for `Multiple` require the header's kid to match an
entry, failing with the unknown-key error otherwise. -/
def Decoders.decode (self : Decoders) (token : Token) :
    Except DecodeError AccessToken :=
  match decodeHeader token with
  | .error e => .error e
  | .ok header =>
    match self with
    | .Single d => d.decode token
    | .Multiple map =>
      match header.kid.bind (fun k => lookupAssoc map k) with
      | some d => d.decode token
      | none => .error .UnknownKey

/-- Embeds `struct InsufficientScope(String)` (permissions.rs). -/
structure InsufficientScope where
  msg : String
deriving DecidableEq, Repr

/-- Debug formatting of one `Permission`, as `{:?}` renders it. -/
def Permission.debugFmt : Permission → String
  | .Admin => "Admin"

/-- Debug formatting of `Vec<Permission>`, as `{:?}` renders it. -/
def permissionsDebugFmt (perms : List Permission) : String :=
  "[" ++ String.intercalate ", " (perms.map Permission.debugFmt) ++ "]"

/-- Embeds `AccessToken::require_permission`: success (returning the token
itself) when some held permission equals the expected scope, otherwise an
`InsufficientScope` carrying the debug-formatted held permissions. -/
def AccessToken.require_permission (self : AccessToken)
    (expected_scope : Permission) : Except InsufficientScope AccessToken :=
  if self.permissions.any (fun scope => scope == expected_scope) then
    .ok self
  else
    .error ⟨"user has only: " ++ permissionsDebugFmt self.permissions⟩

/-- Embeds `struct AdminUser` (model/read/mod.rs): a data-free marker. -/
structure AdminUser where
deriving DecidableEq, Repr

/-- Embeds `struct AuthorizedUser { id: Uuid }` (model/read/mod.rs). -/
structure AuthorizedUser where
  id : Uuid
deriving DecidableEq, Repr

/-- Embeds `AccessToken::to_admin`: `require_permission(Admin)` mapped to
the `AdminUser` marker. -/
def AccessToken.to_admin (self : AccessToken) :
    Except InsufficientScope AdminUser :=
  (self.require_permission .Admin).map (fun _ => AdminUser.mk)

/-- Embeds `AuthorizedUser::create` (model/read/mod.rs): always `Ok`. -/
def AuthorizedUser.create (id : Uuid) : Except String AuthorizedUser :=
  .ok { id := id }

/-- The HTTP statuses the guards use (`rocket::http::Status`). -/
inductive Status where
  | Ok
  | Unauthorized
  | Forbidden
deriving DecidableEq, Repr

/-- Embeds `rocket::request::Outcome`. -/
inductive Outcome (α : Type) where
  | success (val : α)
  | error (status : Status) (msg : String)
  | forward (status : Status)
deriving DecidableEq, Repr

/-- A request, reduced to the first value of its `authorization` header
(`request.headers().get("authorization").next()`). -/
structure Request where
  authorization : Option String
deriving DecidableEq, Repr

/-- Embeds `v.strip_prefix("Bearer ")`: the remainder after the prefix when
the header value starts with it, `none` otherwise. -/
def stripBearer (s : String) : Option String :=
  if "Bearer ".data.isPrefixOf s.data then some (String.mk (s.data.drop 7))
  else none

/-- The token extraction of `AccessToken::from_request`: first
`authorization` header value, stripped of its `Bearer ` prefix. -/
def extractToken (req : Request) : Option String :=
  req.authorization.bind stripBearer

/-- The display string of the `anyhow` decode failure; only the unknown-key
message is a literal of this repository, the other two stand for the
jsonwebtoken library's error displays. -/
def decodeErrMsg : DecodeError → String
  | .Malformed => "InvalidToken"
  | .UnknownKey => "unknown token key"
  | .InvalidSignatureOrClaims => "InvalidSignature"

/-- Embeds `FromRequest for AccessToken`. `parse` is the string-to-JWT
reading done inside the jsonwebtoken calls (a string that parses as no JWT
maps to a `Token` with `header = none`); `decoders` is the managed
`State<Decoders>`, `none` when no state was installed at startup (the code
then forwards). -/
def accessTokenFromRequest (parse : String → Token)
    (decoders : Option Decoders) (req : Request) : Outcome AccessToken :=
  match extractToken req with
  | none => .error .Unauthorized "missing authorization token"
  | some tokenStr =>
    match decoders with
    | none => .forward .Ok
    | some ds =>
      match ds.decode (parse tokenStr) with
      | .ok claims => .success claims
      | .error e => .error .Unauthorized (decodeErrMsg e)

/-- Embeds `FromRequest for AuthorizedUser`: delegate to the `AccessToken`
guard, then build the user from the token's `user_id` claim. -/
def authorizedUserFromRequest (parse : String → Token)
    (decoders : Option Decoders) (req : Request) : Outcome AuthorizedUser :=
  match accessTokenFromRequest parse decoders req with
  | .success token =>
    match AuthorizedUser.create token.user_id with
    | .ok user => .success user
    | .error e => .error .Forbidden e
  | .error st msg => .error st msg
  | .forward st => .forward st

/-- Embeds `FromRequest for AdminUser`: delegate to the `AccessToken` guard,
then `to_admin`, collapsing any denial into one fixed forbidden message. -/
def adminUserFromRequest (parse : String → Token)
    (decoders : Option Decoders) (req : Request) : Outcome AdminUser :=
  match accessTokenFromRequest parse decoders req with
  | .success token =>
    match token.to_admin with
    | .ok user => .success user
    | .error _ => .error .Forbidden "you do not have enough permission"
  | .error st msg => .error st msg
  | .forward st => .forward st

/-- Embeds `enum VarError` of `std::env`. -/
inductive VarError where
  | NotPresent
  | NotUnicode
deriving DecidableEq, Repr

/-- Embeds `fn load_jwk_secret`: read `AUTH_HS256_SECRET`, build an HS256
decoder from it as a shared secret. -/
def load_jwk_secret (secretEnv : Option String) (audEnv : Option String) :
    Except VarError Decoder :=
  match secretEnv with
  | none => .error .NotPresent
  | some secret =>
    .ok { key := .ofSecret secret, validation := validation .HS256 audEnv }

/-- One entry of the fetched JWK set: `key = none` models a JWK from which
`DecodingKey::from_jwk` fails; `key_id` is `jwk.common.key_id`. -/
structure Jwk where
  key : Option Key
  key_id : Option String
deriving DecidableEq, Repr

/-- Embeds `jsonwebtoken::jwk::JwkSet`. -/
structure JwkSet where
  keys : List Jwk
deriving DecidableEq, Repr

/-- The key-set processing inside `fetch_jwk_set`: keep exactly the entries
with both a usable decoding key and a key id, paired with RS256 validation
rules; other entries are silently dropped. -/
def jwkDecoderMap (ks : JwkSet) (audEnv : Option String) :
    List (String × Decoder) :=
  ks.keys.filterMap (fun jwk =>
    jwk.key.bind (fun key =>
      jwk.key_id.map (fun kid =>
        (kid, { key := key, validation := validation .RS256 audEnv }))))

/-- Embeds `fn fetch_jwk_set`: fail when `AUTH_JWKS_URL` is unset or the
network fetch fails, otherwise process the fetched set. `fetched` stands for
the outcome of the `reqwest` retrieval and JSON parse. -/
def fetch_jwk_set (urlEnv : Option String) (fetched : Except String JwkSet)
    (audEnv : Option String) : Except String (List (String × Decoder)) :=
  match urlEnv with
  | none => .error "environment variable not found"
  | some _ =>
    match fetched with
    | .error e => .error e
    | .ok ks => .ok (jwkDecoderMap ks audEnv)

/-- Embeds the ignite hook of `fn fairing`: prefer the fetched key set,
fall back to the static secret, abort startup (`Err(rocket)`, modelled as
`none`) when both fail. -/
def fairingIgnite (fetchResult : Except String (List (String × Decoder)))
    (secretResult : Except VarError Decoder) : Option Decoders :=
  match fetchResult, secretResult with
  | .ok map, _ => some (.Multiple map)
  | .error _, .ok d => some (.Single (d : Decoder))
  | .error _, .error _ => none

/-- Whether frozen key material holds at least one decoding key. -/
def Decoders.hasUsableKey : Decoders → Bool
  | .Single _ => true
  | .Multiple map => !map.isEmpty

/-- The token with its header's key-identifier replaced (when the header
parses at all); used to state kid-independence. -/
def Token.withKid (t : Token) (k : Option String) : Token :=
  { t with header := t.header.map (fun h => { h with kid := k }) }

/-- A concrete HS256 decoder used by witnesses. -/
def sampleDecoder : Decoder :=
  { key := .ofSecret "sample-secret", validation := validation .HS256 none }

/-- A concrete payload carrying every required claim, the default audience,
a user id, and no permissions field. -/
def samplePayload : Json :=
  .obj [("exp", .num 4102444800), ("tax_platform_apps", .str "x"),
        ("aud", .str "outerspace.silenlocatelli.com"),
        ("user_id", .str "user-1")]

/-- A concrete token verifying under `sampleDecoder`. -/
def sampleToken : Token :=
  { header := some { kid := none, alg := .HS256 },
    payload := samplePayload, sigKey := .ofSecret "sample-secret" }

/-- The claims `sampleToken` decodes to. -/
def sampleClaims : AccessToken :=
  { email := none, user_id := "user-1", permissions := [] }

/-! Helper lemmas shared by the claim theorems. -/

/-- A boolean `any` over equality tests is exactly membership. -/
theorem any_beq_eq_mem (l : List Permission) (p : Permission) :
    l.any (fun scope => scope == p) = true ↔ p ∈ l := by
  rw [List.any_eq_true]
  constructor
  · rintro ⟨x, hx, he⟩
    rw [beq_iff_eq] at he
    exact he ▸ hx
  · intro hp
    exact ⟨p, hp, beq_iff_eq.mpr rfl⟩

/-- Element-wise permission parsing fails as soon as one element fails. -/
theorem parsePermissionList_eq_none_of_mem (elems : List Json) (j : Json)
    (hj : j ∈ elems) (hu : parsePermission j = none) :
    parsePermissionList elems = none := by
  induction elems with
  | nil => cases hj
  | cons a rest ih =>
    cases hj with
    | head => simp [parsePermissionList, hu]
    | tail _ hmem =>
      cases ha : parsePermission a with
      | none => simp [parsePermissionList, ha]
      | some p => simp [parsePermissionList, ha, ih hmem]

/-- Appending a field of a different name does not change a lookup. -/
theorem lookupAssoc_append_ne {α : Type} (fields : List (String × α))
    (name f : String) (v : α) (hne : f ≠ name) :
    lookupAssoc (fields ++ [(f, v)]) name = lookupAssoc fields name := by
  induction fields with
  | nil => simp [lookupAssoc, hne]
  | cons a rest ih =>
    obtain ⟨k, val⟩ := a
    by_cases hk : k = name <;> simp [lookupAssoc, hk, ih]

/-- The access-token guard only ever errors with the unauthorized status. -/
theorem accessToken_error_status (parse : String → Token)
    (decoders : Option Decoders) (req : Request) (st : Status) (msg : String)
    (h : accessTokenFromRequest parse decoders req = .error st msg) :
    st = .Unauthorized := by
  cases hex : extractToken req with
  | none =>
    simp [accessTokenFromRequest, hex] at h
    exact h.1.symm
  | some tokenStr =>
    cases decoders with
    | none => simp [accessTokenFromRequest, hex] at h
    | some ds =>
      cases hdec : ds.decode (parse tokenStr) with
      | ok claims => simp [accessTokenFromRequest, hex, hdec] at h
      | error e =>
        simp [accessTokenFromRequest, hex, hdec] at h
        exact h.1.symm

/-- C1: with `Multiple` key material, every token whose parsed header lacks a
key-identifier or whose key-identifier matches no entry is rejected with the
unknown-key error — for every signature (`sigKey` is universally quantified),
and with no fallback to any other key of the map. -/
theorem decode_multiple_unknown_kid (map : List (String × Decoder)) (t : Token)
    (h : Header) (hh : t.header = some h)
    (hk : h.kid.bind (fun k => lookupAssoc map k) = none) :
    Decoders.decode (.Multiple map) t = .error .UnknownKey := by
  simp [Decoders.decode, decodeHeader, hh, hk]

/-- C1 witness: a token with key-identifier `kid1` against an empty map. -/
theorem decode_multiple_unknown_kid_witness :
    Decoders.decode (.Multiple [])
      { header := some { kid := some "kid1", alg := .RS256 },
        payload := .null, sigKey := .ofSecret "s" } = .error .UnknownKey :=
  decode_multiple_unknown_kid [] _ { kid := some "kid1", alg := .RS256 } rfl rfl

/-- C8: with `Single` key material, decoding is exactly the one configured
decoder's decode — and it is invariant under replacing the header's
key-identifier, so any embedded kid is ignored and the outcome depends only
on signature and claim validity against the one secret. -/
theorem decode_single_ignores_kid (d : Decoder) (t : Token) (k : Option String) :
    Decoders.decode (.Single d) t = Decoder.decode d t
    ∧ Decoders.decode (.Single d) (t.withKid k) = Decoders.decode (.Single d) t := by
  constructor
  · cases ht : t.header <;>
      simp [Decoders.decode, decodeHeader, Decoder.decode, ht]
  · cases ht : t.header <;>
      simp [Decoders.decode, decodeHeader, Decoder.decode, Token.withKid, ht]

/-- C5: `require_permission` succeeds (returning the token) exactly when the
wanted permission is held; the check respects permutations of the held list;
on failure the denial carries the debug rendering of the full held list; and
`to_admin` is `require_permission Admin` mapped to the `AdminUser` marker. -/
theorem require_permission_spec (tok : AccessToken) (wanted : Permission) :
    (tok.require_permission wanted = .ok tok ↔ wanted ∈ tok.permissions)
    ∧ (wanted ∉ tok.permissions →
        tok.require_permission wanted =
          .error ⟨"user has only: " ++ permissionsDebugFmt tok.permissions⟩)
    ∧ (∀ perms2 : List Permission, tok.permissions.Perm perms2 →
        (AccessToken.require_permission
            { tok with permissions := perms2 } wanted).isOk
          = (tok.require_permission wanted).isOk)
    ∧ tok.to_admin = (tok.require_permission .Admin).map (fun _ => AdminUser.mk) := by
  refine ⟨?_, ?_, ?_, rfl⟩
  · constructor
    · intro heq
      by_contra hmem
      have hfalse : tok.permissions.any (fun scope => scope == wanted) = false :=
        Bool.eq_false_iff.mpr (fun htrue => hmem ((any_beq_eq_mem _ _).mp htrue))
      unfold AccessToken.require_permission at heq
      rw [hfalse] at heq
      exact Except.noConfusion heq
    · intro hmem
      unfold AccessToken.require_permission
      rw [(any_beq_eq_mem tok.permissions wanted).mpr hmem]
      rfl
  · intro hmem
    have hfalse : tok.permissions.any (fun scope => scope == wanted) = false :=
      Bool.eq_false_iff.mpr (fun htrue => hmem ((any_beq_eq_mem _ _).mp htrue))
    unfold AccessToken.require_permission
    rw [hfalse]
    rfl
  · intro perms2 hperm
    have hb : perms2.any (fun scope => scope == wanted)
        = tok.permissions.any (fun scope => scope == wanted) := by
      rw [Bool.eq_iff_iff, any_beq_eq_mem, any_beq_eq_mem]
      exact hperm.mem_iff.symm
    simp only [AccessToken.require_permission]
    rw [hb]
    by_cases hmem : wanted ∈ tok.permissions
    · rw [(any_beq_eq_mem tok.permissions wanted).mpr hmem]
      rfl
    · rw [Bool.eq_false_iff.mpr (fun htrue => hmem ((any_beq_eq_mem _ _).mp htrue))]
      rfl

/-- C5 witness: an admin check against an empty permission list denies with
the formatted empty list, and against a singleton admin list succeeds. -/
theorem require_permission_spec_witness :
    AccessToken.require_permission
        { email := none, user_id := "u1", permissions := [] } .Admin
      = .error ⟨"user has only: " ++ permissionsDebugFmt []⟩ :=
  (require_permission_spec { email := none, user_id := "u1", permissions := [] }
    .Admin).2.1 (by decide)

/-- C4 counterexample: a payload whose permissions list holds the unknown
tag "superuser" does not deserialize at all, and a token carrying it —
otherwise fully valid and correctly signed — fails decode entirely, instead
of succeeding with the unknown value treated as not granted. -/
theorem unknown_permission_tag_counterexample :
    deserializeAccessToken (.obj [("user_id", .str "u1"),
        ("permissions", .arr [.str "superuser"])]) = none
    ∧ Decoders.decode
        (.Single { key := .ofSecret "s", validation := validation .HS256 none })
        { header := some { kid := none, alg := .HS256 },
          payload := .obj [("exp", .num 4102444800),
            ("tax_platform_apps", .str "x"),
            ("aud", .str "outerspace.silenlocatelli.com"),
            ("user_id", .str "u1"),
            ("permissions", .arr [.str "superuser"])],
          sigKey := .ofSecret "s" } = .error .InvalidSignatureOrClaims :=
  ⟨rfl, rfl⟩

/-- C4 amended: a present permissions list containing any value that is not
the tag "admin" fails the whole payload deserialization (so the token decode
errors); only an absent permissions field is treated as no permissions. -/
theorem unknown_permission_tag_fails_decode (fields : List (String × Json))
    (elems : List Json) (j : Json)
    (hp : lookupAssoc fields "permissions" = some (.arr elems))
    (hj : j ∈ elems) (hu : parsePermission j = none) :
    deserializeAccessToken (.obj fields) = none := by
  have hperms : parsePermissionsField (lookupAssoc fields "permissions") = none := by
    rw [hp]
    simp [parsePermissionsField, parsePermissions,
      parsePermissionList_eq_none_of_mem elems j hj hu]
  cases he : parseEmailField (lookupAssoc fields "email") <;>
    cases hid : parseUserIdField (lookupAssoc fields "user_id") <;>
      simp [deserializeAccessToken, he, hid, hperms]

/-- C4 amended witness: the "superuser" payload through the general theorem. -/
theorem unknown_permission_tag_fails_decode_witness :
    deserializeAccessToken (.obj [("user_id", .str "u1"),
        ("permissions", .arr [.str "superuser"])]) = none :=
  unknown_permission_tag_fails_decode _ [.str "superuser"] (.str "superuser")
    rfl (List.Mem.head _) rfl

/-- C7: a token that passes header parsing, algorithm, signature and claim
validation, and whose payload omits the permissions field, decodes to claims
with the empty permission set; and payload fields other than the three known
ones never change what the payload deserializes to. -/
theorem missing_permissions_defaults_empty (d : Decoder) (t : Token)
    (h : Header) (fields : List (String × Json)) (email : Option String)
    (uid : Uuid)
    (hh : t.header = some h)
    (halg : h.alg = d.validation.alg)
    (hsig : t.sigKey = d.key)
    (hval : validateClaims d.validation t.payload = true)
    (hpay : t.payload = .obj fields)
    (hperm : lookupAssoc fields "permissions" = none)
    (hemail : parseEmailField (lookupAssoc fields "email") = some email)
    (huid : parseUserIdField (lookupAssoc fields "user_id") = some uid) :
    Decoder.decode d t = .ok { email := email, user_id := uid, permissions := [] }
    ∧ ∀ (name : String) (v : Json),
        name ≠ "email" → name ≠ "user_id" → name ≠ "permissions" →
        deserializeAccessToken (.obj (fields ++ [(name, v)]))
          = deserializeAccessToken (.obj fields) := by
  constructor
  · have hpf : parsePermissionsField (lookupAssoc fields "permissions") = some [] := by
      rw [hperm]; rfl
    rw [hpay] at hval
    simp [Decoder.decode, hh, halg, hsig, hval, hpay, deserializeAccessToken,
      hemail, huid, hpf]
  · intro name v h1 h2 h3
    simp only [deserializeAccessToken,
      lookupAssoc_append_ne fields "email" name v h1,
      lookupAssoc_append_ne fields "user_id" name v h2,
      lookupAssoc_append_ne fields "permissions" name v h3]

/-- C7 witness: the sample token (its payload has no permissions field)
decodes to the sample claims, whose permission set is empty. -/
theorem missing_permissions_defaults_empty_witness :
    Decoder.decode sampleDecoder sampleToken = .ok sampleClaims :=
  (missing_permissions_defaults_empty sampleDecoder sampleToken
    { kid := none, alg := .HS256 }
    [("exp", .num 4102444800), ("tax_platform_apps", .str "x"),
     ("aud", .str "outerspace.silenlocatelli.com"), ("user_id", .str "user-1")]
    none "user-1" rfl rfl rfl rfl rfl rfl rfl rfl).1

/-- C3 counterexample: a remote fetch that succeeds with one JWK lacking both
a usable key and a key id is processed to the empty map, startup succeeds,
and the frozen material is `Multiple` with no usable decoding key — the
process does start with no usable key material. -/
theorem startup_empty_multiple_counterexample :
    fairingIgnite
        (fetch_jwk_set (some "https://auth.example/jwks")
          (.ok { keys := [{ key := none, key_id := none }] }) none)
        (load_jwk_secret none none)
      = some (.Multiple [])
    ∧ Decoders.hasUsableKey (.Multiple []) = false :=
  ⟨rfl, rfl⟩

/-- C3 amended: startup fails fatally exactly when both the remote fetch and
the static secret fail; a successful fetch whose entries are all dropped
instead freezes empty `Multiple` material, under which no token ever
decodes — the process runs but fails closed. -/
theorem empty_multiple_decodes_nothing (t : Token) (claims : AccessToken) :
    (∀ (fetchResult : Except String (List (String × Decoder)))
        (secretResult : Except VarError Decoder),
      fairingIgnite fetchResult secretResult = none ↔
        (∃ e, fetchResult = .error e) ∧ (∃ e2, secretResult = .error e2))
    ∧ Decoders.decode (.Multiple []) t ≠ .ok claims := by
  constructor
  · intro fetchResult secretResult
    cases fetchResult <;> cases secretResult <;>
      simp [fairingIgnite]
  · cases ht : t.header with
    | none => simp [Decoders.decode, decodeHeader, ht]
    | some h =>
      cases hk : h.kid with
      | none => simp [Decoders.decode, decodeHeader, ht, hk]
      | some k => simp [Decoders.decode, decodeHeader, ht, hk, lookupAssoc]

/-- C3 amended witness: a concrete token against the empty material. -/
theorem empty_multiple_decodes_nothing_witness :
    Decoders.decode (.Multiple [])
        { header := some { kid := some "kid9", alg := .RS256 },
          payload := .null, sigKey := .ofSecret "z" }
      ≠ .ok { email := none, user_id := "u9", permissions := [] } :=
  (empty_multiple_decodes_nothing _ _).2

/-- C2: key-material resolution at startup follows the fixed fallback order:
a successful fetch freezes `Multiple` over the fetched map (the secret is
never preferred); a failed fetch with the secret set freezes `Single` with
an HS256 decoder over that secret; a failed fetch with no secret aborts
startup, and with no frozen state no guard can ever succeed. -/
theorem fairing_key_material_fallback
    (fetchResult : Except String (List (String × Decoder)))
    (secretEnv audEnv : Option String) :
    (∀ map, fetchResult = .ok map →
      fairingIgnite fetchResult (load_jwk_secret secretEnv audEnv)
        = some (.Multiple map))
    ∧ (∀ e secret, fetchResult = .error e → secretEnv = some secret →
      fairingIgnite fetchResult (load_jwk_secret secretEnv audEnv)
        = some (.Single
            { key := .ofSecret secret, validation := validation .HS256 audEnv }))
    ∧ (∀ e, fetchResult = .error e → secretEnv = none →
      fairingIgnite fetchResult (load_jwk_secret secretEnv audEnv) = none)
    ∧ (fairingIgnite fetchResult (load_jwk_secret secretEnv audEnv) = none →
      ∀ (parse : String → Token) (req : Request),
        (∀ claims, accessTokenFromRequest parse none req ≠ .success claims)
        ∧ (∀ user, authorizedUserFromRequest parse none req ≠ .success user)
        ∧ (∀ user, adminUserFromRequest parse none req ≠ .success user)) := by
  refine ⟨?_, ?_, ?_, ?_⟩
  · intro map hf
    rw [hf]
    rfl
  · intro e secret hf hs
    rw [hf, hs]
    rfl
  · intro e hf hs
    rw [hf, hs]
    rfl
  · intro _ parse req
    cases hex : extractToken req <;>
      simp [accessTokenFromRequest, authorizedUserFromRequest,
        adminUserFromRequest, hex]

/-- C2 witness: a failed fetch with the secret set freezes the HS256 single
decoder. -/
theorem fairing_key_material_fallback_witness :
    fairingIgnite (.error "connection refused")
        (load_jwk_secret (some "shared-secret") none)
      = some (.Single { key := .ofSecret "shared-secret",
                        validation := validation .HS256 none }) :=
  (fairing_key_material_fallback (.error "connection refused")
    (some "shared-secret") none).2.1 "connection refused" "shared-secret" rfl rfl

/-- C6: a request with no authorization header, or whose header value does
not start with "Bearer ", carries no token: all three guards reject it with
the unauthorized outcome, for every parse function and every key-material
state — so before any token parsing. -/
theorem no_bearer_rejected_unauthorized (parse : String → Token)
    (decoders : Option Decoders) (req : Request)
    (h : req.authorization = none ∨
      ∀ s, req.authorization = some s →
        "Bearer ".data.isPrefixOf s.data = false) :
    accessTokenFromRequest parse decoders req
        = .error .Unauthorized "missing authorization token"
    ∧ authorizedUserFromRequest parse decoders req
        = .error .Unauthorized "missing authorization token"
    ∧ adminUserFromRequest parse decoders req
        = .error .Unauthorized "missing authorization token" := by
  have hex : extractToken req = none := by
    cases h with
    | inl h0 => simp [extractToken, h0]
    | inr h0 =>
      cases ha : req.authorization with
      | none => simp [extractToken, ha]
      | some s =>
        rw [extractToken, ha]
        show stripBearer s = none
        rw [stripBearer, h0 s ha]
        rfl
  simp [accessTokenFromRequest, authorizedUserFromRequest,
    adminUserFromRequest, hex]

/-- C6 witness: a request whose authorization header is a Basic credential. -/
theorem no_bearer_rejected_unauthorized_witness :
    adminUserFromRequest (fun _ => sampleToken) (some (.Single sampleDecoder))
        { authorization := some "Basic dXNlcjpwdw==" }
      = .error .Unauthorized "missing authorization token" :=
  (no_bearer_rejected_unauthorized (fun _ => sampleToken)
    (some (.Single sampleDecoder)) { authorization := some "Basic dXNlcjpwdw==" }
    (Or.inr (fun s hs => by cases hs; rfl))).2.2

/-- C9: every request whose token decodes successfully but lacks the admin
permission gets, from the admin guard, the forbidden status with the one
fixed message — which does not mention the held permissions — and any two
such requests get identical admin-guard outcomes. -/
theorem admin_denial_fixed_message (parse : String → Token)
    (decoders : Option Decoders) (req : Request) (claims : AccessToken)
    (hs : accessTokenFromRequest parse decoders req = .success claims)
    (hp : Permission.Admin ∉ claims.permissions) :
    adminUserFromRequest parse decoders req
        = .error .Forbidden "you do not have enough permission"
    ∧ ∀ (parse2 : String → Token) (decoders2 : Option Decoders)
        (req2 : Request) (claims2 : AccessToken),
        accessTokenFromRequest parse2 decoders2 req2 = .success claims2 →
        Permission.Admin ∉ claims2.permissions →
        adminUserFromRequest parse2 decoders2 req2
          = adminUserFromRequest parse decoders req := by
  have hdeny : ∀ c : AccessToken, Permission.Admin ∉ c.permissions →
      c.to_admin = .error ⟨"user has only: " ++ permissionsDebugFmt c.permissions⟩ := by
    intro c hc
    have hfalse : c.permissions.any (fun scope => scope == Permission.Admin) = false :=
      Bool.eq_false_iff.mpr (fun htrue => hc ((any_beq_eq_mem _ _).mp htrue))
    unfold AccessToken.to_admin AccessToken.require_permission
    rw [hfalse]
    rfl
  constructor
  · simp [adminUserFromRequest, hs, hdeny claims hp]
  · intro parse2 decoders2 req2 claims2 hs2 hp2
    simp [adminUserFromRequest, hs, hs2, hdeny claims hp, hdeny claims2 hp2]

/-- C9 witness: the sample token (no permissions) through the admin guard. -/
theorem admin_denial_fixed_message_witness :
    adminUserFromRequest (fun _ => sampleToken) (some (.Single sampleDecoder))
        { authorization := some "Bearer t" }
      = .error .Forbidden "you do not have enough permission" :=
  (admin_denial_fixed_message (fun _ => sampleToken)
    (some (.Single sampleDecoder)) { authorization := some "Bearer t" }
    sampleClaims (by rfl) (by decide)).1

/-- C10: `AuthorizedUser::create` always succeeds with the given id, so
whenever the access-token guard succeeds the authorized-user guard succeeds
with exactly the token's user id, and the guard's forbidden error branch is
unreachable: any error it returns carries the unauthorized status. -/
theorem authorized_user_guard_total (parse : String → Token)
    (decoders : Option Decoders) (req : Request) :
    (∀ id, AuthorizedUser.create id = .ok { id := id })
    ∧ (∀ claims, accessTokenFromRequest parse decoders req = .success claims →
        authorizedUserFromRequest parse decoders req
          = .success { id := claims.user_id })
    ∧ (∀ st msg, authorizedUserFromRequest parse decoders req = .error st msg →
        st = .Unauthorized) := by
  refine ⟨fun id => rfl, ?_, ?_⟩
  · intro claims hs
    simp [authorizedUserFromRequest, hs, AuthorizedUser.create]
  · intro st msg h
    cases hacc : accessTokenFromRequest parse decoders req with
    | success c =>
      simp [authorizedUserFromRequest, hacc, AuthorizedUser.create] at h
    | error st2 msg2 =>
      have h2 : st = st2 := by
        simp [authorizedUserFromRequest, hacc] at h
        exact h.1.symm
      exact h2 ▸ accessToken_error_status parse decoders req st2 msg2 hacc
    | forward st2 =>
      simp [authorizedUserFromRequest, hacc] at h

/-- C10 witness: the sample token reaches the authorized-user guard with the
token's user id. -/
theorem authorized_user_guard_total_witness :
    authorizedUserFromRequest (fun _ => sampleToken)
        (some (.Single sampleDecoder)) { authorization := some "Bearer t" }
      = .success { id := "user-1" } :=
  (authorized_user_guard_total (fun _ => sampleToken)
    (some (.Single sampleDecoder)) { authorization := some "Bearer t" }).2.1
    sampleClaims (by rfl)

end Outerspace
